import Mathlib

/-!
Verification of the order/inventory model of the SDEV 220 group-2
restaurant point-of-sale system.

The definitions below are a shallow embedding of the Python sources:

* `src/gui/restaurant_app.py` — `BackendAdapter` (catalog lookups, stock
  reduction, addon-file commit), `AppOrder` (the cart), and the order
  logic of `RestaurantApp` (`add_to_order`, `add_mod`, `send_to_kitchen`,
  `hold_order`, `_remove_from_carry_out`).
* `src/models/order.py` — the standalone `Order` class.
* `src/gui/customtkinter_restaurant_app.py` — the CustomTkinter variant;
  where its logic differs (e.g. `hold_order`) it is embedded separately.

Python machine integers are modelled as `Int`, monetary amounts as `ℚ`
(the source stores them as floats; no property proved here depends on
float rounding), files as `Option (List String)` (`none` = file absent,
lines without their trailing newline), and `str.startswith` as a prefix
test on the character list.  Fallible operations return `Bool`/`Option`
results exactly where the source returns booleans or swallows exceptions.
-/

namespace Restaurant

/-- An add-on record as loaded from the addon file: fields
`addonID`, `addonName`, `addonPrice`, `addonStock`. -/
structure Addon where
  addonID : Int
  addonName : String
  addonPrice : ℚ
  addonStock : Int
deriving DecidableEq

/-- A product record as loaded from the product file: fields `prodID`,
`prodName`, `prodPrice`, `prodStock` and the raw `prodPresetAddons`
string (comma-separated addon identifiers, or `"None"`/empty). -/
structure Product where
  prodID : Int
  prodName : String
  prodPrice : ℚ
  prodStock : Int
  prodPresetAddons : String
deriving DecidableEq

/-- A cart entry is either a `Product` or an `Addon`; the source
distinguishes the two by duck typing (`hasattr(item, 'addonPrice')`). -/
inductive Item where
  | prod (p : Product)
  | addon (a : Addon)
deriving DecidableEq

/-- One line item of the cart: `(catalog entry, quantity)`. -/
abbrev LineItem := Item × Int

/-- The in-memory inventory held by `InventoryHandler`: the product list
and the addon list. -/
structure Backend where
  productList : List Product
  addonList : List Addon
deriving DecidableEq

/-- `BackendAdapter.get_product`: first-match linear scan of
`productList` by `prodID`. -/
def get_product (b : Backend) (pid : Int) : Option Product :=
  b.productList.find? (fun p => p.prodID == pid)

/-- `BackendAdapter.get_addon`: first-match linear scan of `addonList`
by `addonID`. -/
def get_addon (b : Backend) (aid : Int) : Option Addon :=
  b.addonList.find? (fun a => a.addonID == aid)

/-- The stock of the first addon in `al` whose `addonID` is `aid`
(the value `reduce_addon_stock` reads and writes). -/
def findAddonStock (al : List Addon) (aid : Int) : Option Int :=
  (al.find? (fun a => a.addonID == aid)).map (fun a => a.addonStock)

/-- `BackendAdapter.reduce_addon_stock` (src/gui/restaurant_app.py,
lines 55–67): scans `addonList` for the first addon with the given id;
computes `new_stock = addonStock - qty`; if negative, returns `False`
with the list unchanged, otherwise writes the new stock and returns
`True`.  An id with no match returns `False`. -/
def reduce_addon_stock : List Addon → Int → Int → Bool × List Addon
  | [], _, _ => (false, [])
  | ad :: rest, aid, qty =>
    if ad.addonID == aid then
      let new_stock := ad.addonStock - qty
      if new_stock < 0 then (false, ad :: rest)
      else (true, { ad with addonStock := new_stock } :: rest)
    else
      let r := reduce_addon_stock rest aid qty
      (r.1, ad :: r.2)

/-- Claim C1: for every non-negative stock `s` and integer delta `d`, a
stock adjustment (here `reduce_addon_stock` with quantity `-d`, so that
the stock moves from `s` to `s + d`) succeeds and yields `s + d` exactly
when `s + d ≥ 0`; when `s + d < 0` it returns failure and the addon list
(hence the stock) is unchanged. -/
theorem reduce_addon_stock_adjusts (al : List Addon) (aid d s : Int)
    (hs0 : 0 ≤ s) (hs : findAddonStock al aid = some s) :
    ((reduce_addon_stock al aid (-d)).1 = true ↔ 0 ≤ s + d)
    ∧ (0 ≤ s + d →
        findAddonStock (reduce_addon_stock al aid (-d)).2 aid = some (s + d))
    ∧ (s + d < 0 → reduce_addon_stock al aid (-d) = (false, al)) := by
  induction al with
  | nil => simp [findAddonStock] at hs
  | cons ad rest ih =>
    by_cases h : ad.addonID == aid
    · have hsv : ad.addonStock = s := by
        simp [findAddonStock, List.find?, h] at hs
        exact hs
      subst hsv
      have hred : reduce_addon_stock (ad :: rest) aid (-d) =
          if ad.addonStock - -d < 0 then (false, ad :: rest)
          else (true, { ad with addonStock := ad.addonStock - -d } :: rest) := by
        simp [reduce_addon_stock, h]
      by_cases hneg : ad.addonStock - -d < 0
      · rw [if_pos hneg] at hred
        refine ⟨?_, ?_, ?_⟩
        · rw [hred]; constructor
          · intro hcon; simp at hcon
          · intro hcon; omega
        · intro hcon; omega
        · intro _; rw [hred]
      · rw [if_neg hneg] at hred
        refine ⟨?_, ?_, ?_⟩
        · rw [hred]; constructor
          · intro _; omega
          · intro _; rfl
        · intro _
          rw [hred]
          simp [findAddonStock, List.find?, h, Int.sub_neg]
        · intro hcon; omega
    · have hs' : findAddonStock rest aid = some s := by
        simpa [findAddonStock, List.find?, h] using hs
      obtain ⟨ih1, ih2, ih3⟩ := ih hs'
      have hred : reduce_addon_stock (ad :: rest) aid (-d) =
          ((reduce_addon_stock rest aid (-d)).1,
            ad :: (reduce_addon_stock rest aid (-d)).2) := by
        simp [reduce_addon_stock, h]
      refine ⟨?_, ?_, ?_⟩
      · rw [hred]; exact ih1
      · intro hpos
        rw [hred]
        simpa [findAddonStock, List.find?, h] using ih2 hpos
      · intro hneg
        rw [hred, ih3 hneg]

/-- Concrete check of `reduce_addon_stock_adjusts`: an addon with stock 3
rejects a decrement of 5 (delta −5) and the list is unchanged. -/
theorem reduce_addon_stock_adjusts_witness :
    reduce_addon_stock [⟨7, "Cheese", 1, 3⟩] 7 (-(-5 : Int)) =
      (false, [⟨7, "Cheese", 1, 3⟩]) :=
  (reduce_addon_stock_adjusts [⟨7, "Cheese", 1, 3⟩] 7 (-5) 3 (by decide)
    (by decide)).2.2 (by decide)

/-- Unit price of a line-item entry, as read by the GUI code through
`getattr(i, 'prodPrice', getattr(i, 'addonPrice', 0.0))`: a product
yields `prodPrice`, an addon yields `addonPrice`. -/
def priceOf : Item → ℚ
  | Item.prod p => p.prodPrice
  | Item.addon a => a.addonPrice

/-- Display name of a line-item entry, as read through
`getattr(i, 'prodName', getattr(i, 'addonName', 'Item'))`. -/
def nameOf : Item → String
  | Item.prod p => p.prodName
  | Item.addon a => a.addonName

/-- The cart class `AppOrder` local to the GUI: an ordered list of
line items. -/
structure AppOrder where
  items : List LineItem
deriving DecidableEq

/-- `AppOrder.add_item`: appends `(item, qty)` to the list.  Both the
`'Product'` and the `'Addon'` branch of the source do exactly this (the
addon-renaming experiment is commented out in the source). -/
def AppOrder.add_item (o : AppOrder) (item : Item) (qty : Int) : AppOrder :=
  ⟨o.items ++ [(item, qty)]⟩

/-- `AppOrder.remove_last_item`: `if self.items: self.items.pop()` —
pops the last line item when the list is non-empty, otherwise does
nothing. -/
def AppOrder.remove_last_item (o : AppOrder) : AppOrder :=
  if o.items = [] then o else ⟨o.items.dropLast⟩

/-- `AppOrder.total`: `sum(price * q for i, q in self.items)` with the
`getattr` price access modelled by `priceOf`. -/
def AppOrder.total (o : AppOrder) : ℚ :=
  o.items.foldl (fun acc iq => acc + priceOf iq.1 * (iq.2 : ℚ)) 0

namespace Models

/-- The standalone `Order` class of `src/models/order.py`; its line
items reference the `Product`/`Addon` records of `models/product.py`
(not part of the snapshot), modelled by the same `Item` type. -/
structure Order where
  items : List LineItem
deriving DecidableEq

/-- `Order.add_item` (src/models/order.py, line 14–15). -/
def Order.add_item (o : Order) (item : Item) (qty : Int) : Order :=
  ⟨o.items ++ [(item, qty)]⟩

/-- `Order.remove_last_item` (src/models/order.py, lines 17–19):
`if self.items: self.items.pop()`. -/
def Order.remove_last_item (o : Order) : Order :=
  if o.items = [] then o else ⟨o.items.dropLast⟩

end Models

/-- `AppOrder.total` is the left fold of the source generator; this is
the same as summing `price * qty` over the line-item list. -/
theorem total_eq_sum (o : AppOrder) :
    o.total = (o.items.map (fun iq => priceOf iq.1 * (iq.2 : ℚ))).sum := by
  have haux : ∀ (l : List LineItem) (acc : ℚ),
      l.foldl (fun acc iq => acc + priceOf iq.1 * (iq.2 : ℚ)) acc =
        acc + (l.map (fun iq => priceOf iq.1 * (iq.2 : ℚ))).sum := by
    intro l
    induction l with
    | nil => intro acc; simp
    | cons x xs ih =>
      intro acc
      simp [List.foldl, ih, add_assoc]
  simpa using haux o.items 0

/-- Claim C7: for every cart, `total()` equals the sum over current line
items of the item's unit price times its quantity; and for every cart
whose line items have non-negative unit prices (and the data model's
quantity ≥ 1), removing the last line item never increases `total()`. -/
theorem total_sum_and_remove_last_le (o : AppOrder)
    (hp : ∀ iq ∈ o.items, 0 ≤ priceOf iq.1)
    (hq : ∀ iq ∈ o.items, 1 ≤ iq.2) :
    o.total = (o.items.map (fun iq => priceOf iq.1 * (iq.2 : ℚ))).sum
    ∧ o.remove_last_item.total ≤ o.total := by
  refine ⟨total_eq_sum o, ?_⟩
  rcases List.eq_nil_or_concat o.items with hnil | ⟨L, a, hcat⟩
  · simp [AppOrder.remove_last_item, hnil]
  · have hrm : o.remove_last_item = ⟨L⟩ := by
      have hne : o.items ≠ [] := by rw [hcat]; exact List.concat_ne_nil a L
      simp [AppOrder.remove_last_item, hne, hcat, List.concat_eq_append,
        List.dropLast_concat]
    have hmem : a ∈ o.items := by rw [hcat, List.concat_eq_append]; simp
    have hterm : 0 ≤ priceOf a.1 * (a.2 : ℚ) := by
      have h1 : 0 ≤ priceOf a.1 := hp a hmem
      have h2 : (1 : ℚ) ≤ (a.2 : ℚ) := by exact_mod_cast hq a hmem
      have h3 : (0 : ℚ) ≤ (a.2 : ℚ) := by linarith
      exact mul_nonneg h1 h3
    rw [hrm, total_eq_sum, total_eq_sum]
    simp only [hcat, List.concat_eq_append, List.map_append, List.sum_append,
      List.map_cons, List.map_nil, List.sum_cons, List.sum_nil]
    linarith

/-- Concrete check of `total_sum_and_remove_last_le` on a one-item cart:
total 5 · 2 = 10, and removing the last item drops the total to 0. -/
theorem total_sum_and_remove_last_le_witness :
    (AppOrder.mk [(Item.prod ⟨1, "Burger", 5, 10, "None"⟩, 2)]).total =
      ([(5 : ℚ) * 2]).sum
    ∧ (AppOrder.mk [(Item.prod ⟨1, "Burger", 5, 10, "None"⟩, 2)]).remove_last_item.total ≤
      (AppOrder.mk [(Item.prod ⟨1, "Burger", 5, 10, "None"⟩, 2)]).total :=
  total_sum_and_remove_last_le (AppOrder.mk [(Item.prod ⟨1, "Burger", 5, 10, "None"⟩, 2)])
    (by intro iq hm; simp at hm; rw [hm]; norm_num [priceOf])
    (by intro iq hm; simp at hm; rw [hm]; norm_num)

/-- Claim C10: removing the last line item from an empty cart is a total
no-op for both `Order` implementations: no error is raised (both
embeddings are total functions mirroring `if self.items: pop()`) and the
empty line-item list is unchanged. -/
theorem remove_last_item_empty_noop :
    Models.Order.remove_last_item ⟨[]⟩ = ⟨[]⟩
    ∧ AppOrder.remove_last_item ⟨[]⟩ = ⟨[]⟩ := by
  constructor <;> rfl

/-- Modelled from the spec: `InventoryHandler.updateStock` lives in the
`restaraunt_system` module, which is not part of the repository snapshot
(only its callers are); §4.2 of the spec says `adjustStock` applies
`newStock = currentStock + delta`, rejects (returns failure, stock
unchanged) when `newStock < 0`, and accepts any `newStock ≥ 0`; lookup is
a first-match scan by identifier (§3). -/
def updateStock : List Product → Int → Int → Bool × List Product
  | [], _, _ => (false, [])
  | p :: rest, pid, delta =>
    if p.prodID == pid then
      let newStock := p.prodStock + delta
      if newStock < 0 then (false, p :: rest)
      else (true, { p with prodStock := newStock } :: rest)
    else
      let r := updateStock rest pid delta
      (r.1, p :: r.2)

/-- `BackendAdapter.reduce_stock`: `updateStock(pid, -qty)`. -/
def reduce_stock (pl : List Product) (pid qty : Int) : Bool × List Product :=
  updateStock pl pid (-qty)

/-- Outcome of `RestaurantApp.send_to_kitchen`. -/
inductive KitchenResult where
  | empty
  | aborted
  | sent
deriving DecidableEq

/-- The decrement loop of `send_to_kitchen` (src/gui/restaurant_app.py,
lines 729–749): walks the cart in order; an addon line item calls
`reduce_addon_stock`, a product line item calls `reduce_stock`; the loop
returns early (leaving all earlier decrements applied) as soon as one
call reports failure. -/
def send_to_kitchen_loop : Backend → List LineItem → Bool × Backend
  | b, [] => (true, b)
  | b, (Item.addon a, qty) :: rest =>
    let r := reduce_addon_stock b.addonList a.addonID qty
    if r.1 then send_to_kitchen_loop { b with addonList := r.2 } rest
    else (false, { b with addonList := r.2 })
  | b, (Item.prod p, qty) :: rest =>
    let r := reduce_stock b.productList p.prodID qty
    if r.1 then send_to_kitchen_loop { b with productList := r.2 } rest
    else (false, { b with productList := r.2 })

/-- `RestaurantApp.send_to_kitchen` (tk version): an empty cart is a
no-op; otherwise the loop runs, and on success the cart is cleared (the
file commit via `save_products`/`save_addons` that follows on the
success path is modelled separately by `save_addons`). -/
def send_to_kitchen (b : Backend) (o : AppOrder) : KitchenResult × Backend × AppOrder :=
  if o.items = [] then (KitchenResult.empty, b, o)
  else
    let r := send_to_kitchen_loop b o.items
    if r.1 then (KitchenResult.sent, r.2, ⟨[]⟩)
    else (KitchenResult.aborted, r.2, o)

/-- Claim C2: a cart with two line items where the second has
insufficient stock: `send_to_kitchen` aborts at the second item having
already applied the decrement for the first (addon 1 drops from stock 5
to 4) and does not roll it back. -/
theorem send_to_kitchen_no_rollback :
    send_to_kitchen ⟨[], [⟨1, "Fries", 2, 5⟩, ⟨2, "Sauce", 1, 0⟩]⟩
        ⟨[(Item.addon ⟨1, "Fries", 2, 5⟩, 1), (Item.addon ⟨2, "Sauce", 1, 0⟩, 1)]⟩ =
      (KitchenResult.aborted, ⟨[], [⟨1, "Fries", 2, 4⟩, ⟨2, "Sauce", 1, 0⟩]⟩,
        ⟨[(Item.addon ⟨1, "Fries", 2, 5⟩, 1), (Item.addon ⟨2, "Sauce", 1, 0⟩, 1)]⟩)
    ∧ findAddonStock [⟨1, "Fries", 2, 5⟩, ⟨2, "Sauce", 1, 0⟩] 1 = some 5
    ∧ findAddonStock [⟨(1 : Int), "Fries", (2 : ℚ), 4⟩, ⟨2, "Sauce", 1, 0⟩] 1 = some 4 := by
  refine ⟨?_, ?_, ?_⟩ <;> decide

/-- The full application state touched by the carry-out (held order)
flow of the tk GUI. -/
structure AppState where
  backend : Backend
  order : AppOrder
  held_orders : List (List LineItem)
  hold_seq : Int
deriving DecidableEq

/-- `RestaurantApp.hold_order` (tk version, src/gui/restaurant_app.py,
lines 766–801): with a non-empty cart, appends a snapshot of the cart's
line items to `held_orders`, increments `hold_seq`, and clears the cart;
an empty cart is a no-op.  Only UI widgets are touched otherwise. -/
def hold_order (st : AppState) : AppState :=
  if st.order.items = [] then st
  else
    { st with
      held_orders := st.held_orders ++ [st.order.items]
      hold_seq := st.hold_seq + 1
      order := ⟨[]⟩ }

/-- `RestaurantApp._remove_from_carry_out` (tk version, parent-row case,
src/gui/restaurant_app.py, lines 610–635): with the selected carry-out
order at position `idx`, removes it from `held_orders` when the index is
in range; the child-row case only shows a message. -/
def remove_from_carry_out (st : AppState) (idx : Nat) : AppState :=
  if idx < st.held_orders.length then
    { st with held_orders := st.held_orders.eraseIdx idx }
  else st

/-- `RestaurantApp.hold_order` of the CustomTkinter version
(src/gui/customtkinter_restaurant_app.py, lines 804–857): requires the
dine-in cart to be empty and a selected product with a valid quantity
and sufficient stock (stock is read, never written); appends the
one-product order to `held_orders` and increments `hold_seq`. -/
def hold_order_ctk (st : AppState) (pid qty : Int) : AppState :=
  if st.order.items ≠ [] then st
  else
    match get_product st.backend pid with
    | none => st
    | some prod =>
      if qty ≤ 0 then st
      else if prod.prodStock < qty then st
      else
        { st with
          held_orders := st.held_orders ++ [[(Item.prod prod, qty)]]
          hold_seq := st.hold_seq + 1 }

/-- Claim C9: enqueueing a cart as a held (carry-out) order and later
cancelling that held order leave the whole catalog (every product's and
add-on's stock) unchanged, in the tk flow and in the CustomTkinter
enqueue; no stock is reserved or reduced at any point of a held order's
lifetime. -/
theorem hold_order_preserves_backend (st : AppState) (pid qty : Int) (idx : Nat) :
    (hold_order st).backend = st.backend
    ∧ (remove_from_carry_out (hold_order st) idx).backend = st.backend
    ∧ (hold_order_ctk st pid qty).backend = st.backend := by
  refine ⟨?_, ?_, ?_⟩
  · unfold hold_order; split <;> rfl
  · unfold remove_from_carry_out hold_order
    split <;> split <;> rfl
  · unfold hold_order_ctk
    split
    · rfl
    · rcases get_product st.backend pid with _ | prod
      · rfl
      · simp only
        split
        · rfl
        · split <;> rfl

/-- Model of Python `str.startswith(p)`: a prefix test, decided on the
character lists of the two strings. -/
def pyStartsWith (s p : String) : Bool :=
  p.data.isPrefixOf s.data

/-- Any string extending `p` starts with `p`. -/
theorem pyStartsWith_append (p t : String) : pyStartsWith (p ++ t) p = true := by
  rw [pyStartsWith, String.data_append, List.isPrefixOf_iff_prefix]
  exact List.prefix_append p.data t.data

/-- If `s` is at least as long as `p` and does not start with `p`, no
extension of `s` starts with `p`. -/
theorem pyStartsWith_append_false (s p t : String) (hlen : p.length ≤ s.length)
    (h : pyStartsWith s p = false) : pyStartsWith (s ++ t) p = false := by
  rw [pyStartsWith, String.data_append]
  by_contra hcon
  rw [Bool.not_eq_false, List.isPrefixOf_iff_prefix, List.prefix_iff_eq_take] at hcon
  have htake : (s.data ++ t.data).take p.data.length = s.data.take p.data.length := by
    apply List.take_append_of_le_length
    exact hlen
  rw [pyStartsWith] at h
  rw [Bool.eq_false_iff, Ne, List.isPrefixOf_iff_prefix, List.prefix_iff_eq_take] at h
  exact h (hcon.trans htake)

/-- Renders the rational `n / d` (with `d > 0`) to two decimal places,
rounding half a cent up: the model of the `f"{x:.2f}"` formatting of the
source's monetary amounts.  (The source formats IEEE floats; none of the
properties proved here depend on sub-cent rounding.)  Working from the
numerator and denominator keeps the definition kernel-computable. -/
def fmt2frac (n : Int) (d : Nat) : String :=
  let cents : Int := Int.fdiv (200 * n + d) (2 * d)
  let sign := if cents < 0 then "-" else ""
  let m := cents.natAbs
  sign ++ toString (m / 100) ++ "." ++ (if m % 100 < 10 then "0" else "") ++ toString (m % 100)

/-- Two-decimal rendering of a rational amount. -/
def fmt2 (q : ℚ) : String :=
  fmt2frac q.num q.den

/-- The number of lines of a ledger file that start with `"Order #"` —
the quantity the source counts in `AppOrder.save_to_file`. -/
def countOrderHeaders (lines : List String) : Nat :=
  (lines.filter (fun l => pyStartsWith l "Order #")).length

/-- The order number `AppOrder.save_to_file` computes: `1` when the file
is absent, otherwise `1` plus the count of `"Order #"`-prefixed lines. -/
def orderNumber (file : Option (List String)) : Nat :=
  match file with
  | none => 1
  | some lines => 1 + countOrderHeaders lines

/-- One rendered line item of the ledger block:
`f"{name} x{q} @ ${price:.2f} = ${price * q:.2f}"`.  The extended price
`price * q` is rendered from the fraction `(num · q) / den`, whose value
is exactly `price * q`. -/
def itemLine (li : LineItem) : String :=
  nameOf li.1 ++ " x" ++ toString li.2 ++ " @ $" ++ fmt2 (priceOf li.1) ++ " = $" ++
    fmt2frac ((priceOf li.1).num * li.2) (priceOf li.1).den

/-- The block of lines one `save_to_file` call writes: the
`Order #<n> — Timestamp: <ts>` header, one line per line item, the
subtotal/tax/tip/total lines and the blank line from the final
`"\n\n"`. -/
def orderBlock (o : AppOrder) (n : Nat) (ts : String) (tax tip : ℚ) : List String :=
  let subtotal := o.total
  let total := subtotal + tax + tip
  ("Order #" ++ toString n ++ " — Timestamp: " ++ ts)
    :: o.items.map itemLine
    ++ ["Subtotal: $" ++ fmt2 subtotal, "Tax: $" ++ fmt2 tax, "Tip: $" ++ fmt2 tip,
        "Total: $" ++ fmt2 total, ""]

/-- `AppOrder.save_to_file` (src/gui/restaurant_app.py, lines 143–168):
computes the order number by scanning the existing file (starting from
1, adding 1 per `"Order #"`-prefixed line; a missing file yields 1) and
appends the rendered block, leaving all prior content in place.  The
result is the file content after the call. -/
def save_to_file (o : AppOrder) (file : Option (List String)) (ts : String)
    (tax tip : ℚ) : List String :=
  file.getD [] ++ orderBlock o (orderNumber file) ts tax tip

/-- A string whose first character differs from the first character of
`p` does not start with `p`, whatever follows it. -/
theorem pyStartsWith_append_ne_head (s p t : String) (a b : Char)
    (l1 l2 : List Char) (hs : s.data = a :: l1) (hp : p.data = b :: l2)
    (hab : a ≠ b) : pyStartsWith (s ++ t) p = false := by
  rw [pyStartsWith, String.data_append, hs, hp]
  have hba : (b == a) = false := beq_eq_false_iff_ne.mpr (Ne.symm hab)
  simp [List.cons_append, List.isPrefixOf, hba]

/-- The header line of an order block starts with `"Order #"`. -/
theorem pyStartsWith_header (a b c : String) :
    pyStartsWith ("Order #" ++ a ++ b ++ c) "Order #" = true := by
  rw [pyStartsWith, String.data_append, String.data_append, String.data_append,
    List.isPrefixOf_iff_prefix]
  exact ((List.prefix_append _ _).trans (List.prefix_append _ _)).trans
    (List.prefix_append _ _)

/-- `countOrderHeaders` distributes over file concatenation. -/
theorem countOrderHeaders_append (l1 l2 : List String) :
    countOrderHeaders (l1 ++ l2) = countOrderHeaders l1 + countOrderHeaders l2 := by
  simp [countOrderHeaders, List.filter_append]

/-- An appended order block contributes exactly one `"Order #"` line —
its header — provided no rendered line item starts with `"Order #"`. -/
theorem countOrderHeaders_orderBlock (o : AppOrder) (n : Nat) (ts : String) (tax tip : ℚ)
    (hitems : ∀ li ∈ o.items, pyStartsWith (itemLine li) "Order #" = false) :
    countOrderHeaders (orderBlock o n ts tax tip) = 1 := by
  have hmap : List.filter (fun l => pyStartsWith l "Order #") (o.items.map itemLine) = [] := by
    rw [List.filter_eq_nil_iff]
    intro a ha
    obtain ⟨li, hli, rfl⟩ := List.mem_map.mp ha
    simp [hitems li hli]
  have htrail : List.filter (fun l => pyStartsWith l "Order #")
      ["Subtotal: $" ++ fmt2 (AppOrder.total o),
       "Tax: $" ++ fmt2 tax, "Tip: $" ++ fmt2 tip,
       "Total: $" ++ fmt2 (AppOrder.total o + tax + tip), ""] = [] := by
    rw [List.filter_eq_nil_iff]
    intro a ha
    simp only [List.mem_cons, List.not_mem_nil, or_false] at ha
    rcases ha with rfl | rfl | rfl | rfl | rfl
    · simp [pyStartsWith_append_ne_head "Subtotal: $" "Order #" _ 'S' 'O'
        "ubtotal: $".data "rder #".data (by decide) (by decide) (by decide)]
    · simp [pyStartsWith_append_ne_head "Tax: $" "Order #" _ 'T' 'O'
        "ax: $".data "rder #".data (by decide) (by decide) (by decide)]
    · simp [pyStartsWith_append_ne_head "Tip: $" "Order #" _ 'T' 'O'
        "ip: $".data "rder #".data (by decide) (by decide) (by decide)]
    · simp [pyStartsWith_append_ne_head "Total: $" "Order #" _ 'T' 'O'
        "otal: $".data "rder #".data (by decide) (by decide) (by decide)]
    · decide
  rw [countOrderHeaders, orderBlock]
  simp only [List.filter_cons, pyStartsWith_header, if_true, List.filter_append,
    hmap, htrail, List.append_nil, List.length_cons, List.length_nil]

/-- Claim C4 (amended): ledger append computes the order number as 1
plus the count of `"Order #"`-prefixed lines of the existing file (1 if
the file is absent) and writes the appended block's header with that
number right after the prior content; provided no line of the appended
block other than its header starts with `"Order #"` (in particular no
item name does), each append raises the count — and hence the next
order number — by exactly one, so a first append to an empty ledger
writes `"Order #1"` and a second writes `"Order #2"`; this holds across
process restarts because the number is a function of the file contents
alone, never kept in memory. -/
theorem ledger_order_numbering (o : AppOrder) (file : Option (List String))
    (ts : String) (tax tip : ℚ) :
    orderNumber file = 1 + countOrderHeaders (file.getD [])
    ∧ (save_to_file o file ts tax tip)[(file.getD []).length]? =
        some ("Order #" ++ toString (orderNumber file) ++ " — Timestamp: " ++ ts)
    ∧ ((∀ li ∈ o.items, pyStartsWith (itemLine li) "Order #" = false) →
        countOrderHeaders (save_to_file o file ts tax tip) =
          countOrderHeaders (file.getD []) + 1
        ∧ orderNumber (some (save_to_file o file ts tax tip)) = orderNumber file + 1) := by
  refine ⟨?_, ?_, ?_⟩
  · cases file <;> simp [orderNumber, countOrderHeaders]
  · rw [save_to_file, List.getElem?_append_right (le_refl _)]
    simp [orderBlock]
  · intro h
    have hcount : countOrderHeaders (save_to_file o file ts tax tip) =
        countOrderHeaders (file.getD []) + 1 := by
      rw [save_to_file, countOrderHeaders_append,
        countOrderHeaders_orderBlock o (orderNumber file) ts tax tip h]
    refine ⟨hcount, ?_⟩
    rw [orderNumber, hcount]
    cases file
    · simp [orderNumber, countOrderHeaders]
    · simp [orderNumber, countOrderHeaders]
      omega

/-- Concrete check of `ledger_order_numbering`: for a one-Burger cart,
the first append to an absent ledger writes the header `"Order #1"`, and
the second append writes `"Order #2"`. -/
theorem ledger_order_numbering_witness :
    (save_to_file ⟨[(Item.prod ⟨1, "Burger", 5, 10, "None"⟩, 1)]⟩ none "T1" 0 0)[0]? =
      some "Order #1 — Timestamp: T1"
    ∧ (save_to_file ⟨[(Item.prod ⟨1, "Burger", 5, 10, "None"⟩, 1)]⟩
        (some (save_to_file ⟨[(Item.prod ⟨1, "Burger", 5, 10, "None"⟩, 1)]⟩ none "T1" 0 0))
        "T2" 0 0)[(save_to_file ⟨[(Item.prod ⟨1, "Burger", 5, 10, "None"⟩, 1)]⟩ none "T1" 0 0).length]? =
      some "Order #2 — Timestamp: T2" := by
  constructor
  · have h1 := (ledger_order_numbering ⟨[(Item.prod ⟨1, "Burger", 5, 10, "None"⟩, 1)]⟩
      none "T1" 0 0).2.1
    exact h1.trans (by decide)
  · have hnum : orderNumber (some (save_to_file ⟨[(Item.prod ⟨1, "Burger", 5, 10, "None"⟩, 1)]⟩
        none "T1" 0 0)) = 2 := by
      have h2 := ((ledger_order_numbering ⟨[(Item.prod ⟨1, "Burger", 5, 10, "None"⟩, 1)]⟩
        none "T1" 0 0).2.2 (by decide)).2
      rw [h2]
      decide
    have h3 := (ledger_order_numbering ⟨[(Item.prod ⟨1, "Burger", 5, 10, "None"⟩, 1)]⟩
      (some (save_to_file ⟨[(Item.prod ⟨1, "Burger", 5, 10, "None"⟩, 1)]⟩ none "T1" 0 0))
      "T2" 0 0).2.1
    rw [hnum] at h3
    exact h3.trans (by decide)

unseal Rat.mul Rat.add in
/-- Counterexample to claim C4 as stated: when the first cart contains
an item whose name itself starts with `"Order #"`, the rendered item
line is counted as a header on the next scan, so the second append to an
initially absent ledger writes `"Order #3"`, not `"Order #2"`. -/
theorem ledger_second_append_not_two :
    (save_to_file ⟨[(Item.prod ⟨1, "Order #0 Burgers", 5, 10, "None"⟩, 1)]⟩ none "T1" 0 0)[0]? =
      some "Order #1 — Timestamp: T1"
    ∧ (save_to_file ⟨[(Item.prod ⟨2, "Salad", 4, 10, "None"⟩, 1)]⟩
        (some (save_to_file ⟨[(Item.prod ⟨1, "Order #0 Burgers", 5, 10, "None"⟩, 1)]⟩ none "T1" 0 0))
        "T2" 0 0)[(save_to_file ⟨[(Item.prod ⟨1, "Order #0 Burgers", 5, 10, "None"⟩, 1)]⟩ none "T1" 0 0).length]? =
      some "Order #3 — Timestamp: T2"
    ∧ "Order #3 — Timestamp: T2" ≠ "Order #2 — Timestamp: T2" := by
  refine ⟨?_, ?_, ?_⟩ <;> decide

/-- Splits a character list at every occurrence of `sep`; the separators
are dropped and empty segments are kept, like Python `str.split(sep)`
with a one-character separator. -/
def splitChar (sep : Char) : List Char → List (List Char)
  | [] => [[]]
  | c :: rest =>
    let r := splitChar sep rest
    if c = sep then [] :: r
    else
      match r with
      | [] => [[c]]
      | h :: t => (c :: h) :: t

/-- Model of Python `s.split(sep)` for a one-character separator,
as used on `prodPresetAddons` (`split(',')`) and on the addon-file
lines (`split('=')`). -/
def pySplit (s : String) (sep : Char) : List String :=
  (splitChar sep s.data).map String.mk

/-- Model of Python `str.strip()`: removes leading and trailing
whitespace characters. -/
def pyStrip (s : String) : String :=
  String.mk (((s.data.dropWhile Char.isWhitespace).reverse.dropWhile
    Char.isWhitespace).reverse)

/-- Parses a non-empty all-digit character list as a natural number. -/
def pyNatDigits? (l : List Char) : Option Nat :=
  if l = [] then none
  else
    l.foldl
      (fun acc c =>
        match acc with
        | none => none
        | some n => if c.isDigit then some (n * 10 + (c.toNat - 48)) else none)
      (some 0)

/-- Model of Python `int(s)` on the identifier strings handled here:
surrounding whitespace is stripped, then an optional sign followed by
decimal digits is accepted; anything else raises `ValueError`, modelled
as `none`.  (Python additionally allows digit-group underscores, which
never occur in this data.) -/
def pyInt? (s : String) : Option Int :=
  match (pyStrip s).data with
  | '-' :: rest => (pyNatDigits? rest).map (fun n => -(n : Int))
  | '+' :: rest => (pyNatDigits? rest).map (fun n => (n : Int))
  | t => (pyNatDigits? t).map (fun n => (n : Int))

/-- How `RestaurantApp.add_to_order` can leave the product branch; `ok`
is the fall-through success, the others are the early `return`s (bad
quantity, missing catalog record, insufficient stock, unparsable preset
addon identifier, preset addon missing from the catalog). -/
inductive AddResult where
  | ok
  | badQty
  | productNotFound
  | outOfStock
  | badPreset
  | addonNotFound
deriving DecidableEq

/-- The inner validation loop over the split `prodPresetAddons` parts
(src/gui/restaurant_app.py, lines 477–490): each part must parse as an
integer, resolve to a catalog addon, and have stock at least `qty`; on
success the resolved addons are returned in order.  (The source's append
loop re-resolves each part with `int(a)`/`get_addon(a)`; the catalog is
not modified in between, so the second resolution returns the same
records validated here.) -/
def checkParts (b : Backend) (qty : Int) : List String → Except AddResult (List Addon)
  | [] => Except.ok []
  | part :: rest =>
    match pyInt? part with
    | none => Except.error AddResult.badPreset
    | some aidv =>
      match get_addon b aidv with
      | none => Except.error AddResult.addonNotFound
      | some ad =>
        if ad.addonStock < qty then Except.error AddResult.outOfStock
        else (checkParts b qty rest).map (fun l => ad :: l)

/-- The line items one unit of a preset-addon product contributes:
`(product, 1)` followed by `(addon, 1)` per preset addon. -/
def presetGroup (p : Product) (addons : List Addon) : List LineItem :=
  (Item.prod p, 1) :: addons.map (fun a => (Item.addon a, 1))

/-- The `for i in range(qty)` loop of `add_to_order`: each iteration
first validates every preset part (returning early with the cart as
accumulated so far on any failure), then appends the product line and
its addon lines. -/
def addLoop (b : Backend) (p : Product) (parts : List String) (qty : Int) :
    Nat → List LineItem → AddResult × List LineItem
  | 0, cur => (AddResult.ok, cur)
  | n + 1, cur =>
    match checkParts b qty parts with
    | Except.error e => (e, cur)
    | Except.ok addons => addLoop b p parts qty n (cur ++ presetGroup p addons)

/-- The product branch of `RestaurantApp.add_to_order`
(src/gui/restaurant_app.py, lines 449–496): validates the quantity, the
product lookup and the product stock; re-fetches `prodPresetAddons` by a
second identical first-match scan; a product without preset add-ons is
appended as one `(product, qty)` line, otherwise the per-unit loop
runs.  Returns the exit reason and the cart line items after the call.
(The `none` arm of the re-fetch is unreachable: the second scan finds
the record the first scan found.) -/
def add_to_order_product (b : Backend) (pid qty : Int) (s : List LineItem) :
    AddResult × List LineItem :=
  if qty ≤ 0 then (AddResult.badQty, s)
  else
    match get_product b pid with
    | none => (AddResult.productNotFound, s)
    | some item =>
      if item.prodStock < qty then (AddResult.outOfStock, s)
      else
        match get_product b item.prodID with
        | none => (AddResult.productNotFound, s)
        | some item2 =>
          if item2.prodPresetAddons = "None" ∨ item2.prodPresetAddons = "" then
            (AddResult.ok, s ++ [(Item.prod item, qty)])
          else
            addLoop b item (pySplit item2.prodPresetAddons ',') qty qty.toNat s

/-- `RestaurantApp.add_mod` (src/gui/restaurant_app.py, lines 514–544):
validates the quantity, the addon lookup and the addon stock, then
appends `(addon, qty)` to the cart; any failed check leaves the cart
unchanged. -/
def add_mod_fn (b : Backend) (aid qty : Int) (s : List LineItem) : List LineItem :=
  if qty ≤ 0 then s
  else
    match get_addon b aid with
    | none => s
    | some addon =>
      if addon.addonStock < qty then s
      else s ++ [(Item.addon addon, qty)]

/-- `checkParts` never reports a successful exit as an error. -/
theorem checkParts_error_ne_ok (b : Backend) (qty : Int) :
    ∀ (parts : List String) (e : AddResult),
      checkParts b qty parts = Except.error e → e ≠ AddResult.ok
  | [], e, h => by simp [checkParts] at h
  | part :: rest, e, h => by
    rw [checkParts] at h
    split at h
    · injection h with h1; rw [← h1]; decide
    · split at h
      · injection h with h1; rw [← h1]; decide
      · split at h
        · injection h with h1; rw [← h1]; decide
        · rcases hr : checkParts b qty rest with e2 | l
          · rw [hr] at h
            simp only [Except.map] at h
            injection h with h1
            exact h1 ▸ checkParts_error_ne_ok b qty rest e2 hr
          · rw [hr] at h
            simp [Except.map] at h

/-- When `checkParts` succeeds, every preset part parses, resolves, and
has stock at least `qty`. -/
theorem checkParts_ok_spec (b : Backend) (qty : Int) :
    ∀ (parts : List String) (l : List Addon),
      checkParts b qty parts = Except.ok l →
      ∀ part ∈ parts, ∃ aidv ad, pyInt? part = some aidv
        ∧ get_addon b aidv = some ad ∧ qty ≤ ad.addonStock
  | [], l, _, part, hmem => by simp at hmem
  | q :: rest, l, h, part, hmem => by
    rw [checkParts] at h
    split at h
    · simp at h
    · split at h
      · simp at h
      · split at h
        · simp at h
        · rcases hr : checkParts b qty rest with e2 | l2
          · rw [hr] at h; simp [Except.map] at h
          · rcases List.mem_cons.mp hmem with rfl | hmem2
            · next h1 h2 h3 =>
                exact ⟨_, _, h3, h1, not_lt.mp h2⟩
            · exact checkParts_ok_spec b qty rest l2 hr part hmem2

/-- When `checkParts` fails, the loop aborts on its first iteration with
the cart exactly as given; when it succeeds, every iteration succeeds. -/
theorem addLoop_cases (b : Backend) (p : Product) (parts : List String) (qty : Int) :
    ∀ (n : Nat) (cur : List LineItem),
      ((addLoop b p parts qty n cur).1 ≠ AddResult.ok →
        (addLoop b p parts qty n cur).2 = cur)
      ∧ (∀ l, checkParts b qty parts = Except.ok l →
          addLoop b p parts qty n cur =
            (AddResult.ok, cur ++ (List.replicate n (presetGroup p l)).flatten)) := by
  intro n
  induction n with
  | zero =>
    intro cur
    constructor
    · intro hne; rfl
    · intro l hck; simp [addLoop]
  | succ m ih =>
    intro cur
    rcases hck : checkParts b qty parts with e | l
    · constructor
      · intro _; simp [addLoop, hck]
      · intro l2 hck2; simp at hck2
    · have hstep : addLoop b p parts qty (m + 1) cur =
          addLoop b p parts qty m (cur ++ presetGroup p l) := by
        simp [addLoop, hck]
      constructor
      · intro hne
        rw [hstep] at hne ⊢
        have := (ih (cur ++ presetGroup p l)).2 l hck
        rw [this] at hne
        simp at hne
      · intro l2 hck2
        injection hck2 with h2
        subst h2
        rw [hstep, (ih (cur ++ presetGroup p l)).2 l hck]
        simp [List.replicate_succ, List.append_assoc]

/-- A product found by id satisfies the search predicate, so the
source's second scan (`get_product(item.prodID)`) returns it again. -/
theorem get_product_refetch (b : Backend) (pid : Int) (p : Product)
    (h : get_product b pid = some p) : get_product b p.prodID = some p := by
  have hpred := List.find?_some h
  have hid : p.prodID = pid := by simpa using hpred
  rw [hid]
  exact h

/-- Claim C5: the product branch of `add_to_order` is atomic — any exit
other than success leaves the cart's line-item list exactly as it was
(no partial append), and success implies the product was found with
stock at least the requested quantity and, when it has preset add-ons,
that every preset identifier parsed, resolved to a catalog addon, and
had stock at least the full requested quantity. -/
theorem add_to_order_atomic (b : Backend) (pid qty : Int) (s : List LineItem) :
    ((add_to_order_product b pid qty s).1 ≠ AddResult.ok →
      (add_to_order_product b pid qty s).2 = s)
    ∧ ((add_to_order_product b pid qty s).1 = AddResult.ok →
        ∃ p, get_product b pid = some p ∧ qty ≤ p.prodStock
          ∧ (¬(p.prodPresetAddons = "None" ∨ p.prodPresetAddons = "") →
              ∀ part ∈ pySplit p.prodPresetAddons ',',
                ∃ aidv ad, pyInt? part = some aidv
                  ∧ get_addon b aidv = some ad ∧ qty ≤ ad.addonStock)) := by
  by_cases hq : qty ≤ 0
  · constructor
    · intro _; simp [add_to_order_product, hq]
    · intro hok; simp [add_to_order_product, hq] at hok
  · rcases hp : get_product b pid with _ | p
    · constructor
      · intro _; simp [add_to_order_product, hq, hp]
      · intro hok; simp [add_to_order_product, hq, hp] at hok
    · by_cases hst : p.prodStock < qty
      · constructor
        · intro _; simp [add_to_order_product, hq, hp, hst]
        · intro hok; simp [add_to_order_product, hq, hp, hst] at hok
      · have hp2 : get_product b p.prodID = some p := get_product_refetch b pid p hp
        by_cases hpre : p.prodPresetAddons = "None" ∨ p.prodPresetAddons = ""
        · constructor
          · intro hne
            exfalso
            apply hne
            simp [add_to_order_product, hq, hp, hst, hp2, hpre]
          · intro _
            exact ⟨p, rfl, not_lt.mp hst, fun hcon => absurd hpre hcon⟩
        · have heq : add_to_order_product b pid qty s =
              addLoop b p (pySplit p.prodPresetAddons ',') qty qty.toNat s := by
            simp [add_to_order_product, hq, hp, hst, hp2, hpre]
          constructor
          · intro hne
            rw [heq] at hne ⊢
            exact (addLoop_cases b p (pySplit p.prodPresetAddons ',') qty qty.toNat s).1 hne
          · intro hok
            refine ⟨p, rfl, not_lt.mp hst, fun _ => ?_⟩
            rw [heq] at hok
            rcases hck : checkParts b qty (pySplit p.prodPresetAddons ',') with e | l
            · exfalso
              have hn : ∃ m, qty.toNat = m + 1 := by
                refine ⟨qty.toNat - 1, ?_⟩
                omega
              obtain ⟨m, hm⟩ := hn
              rw [hm] at hok
              rw [addLoop, hck] at hok
              exact checkParts_error_ne_ok b qty _ e hck hok
            · exact checkParts_ok_spec b qty _ l hck

/-- Concrete check of `add_to_order_atomic`: requesting 4 units of a
product whose preset addon has only 3 in stock fails and leaves a
one-item cart exactly as it was. -/
theorem add_to_order_atomic_witness :
    (add_to_order_product
        ⟨[⟨1, "Burger", 5, 10, "2"⟩], [⟨2, "Pickles", 1, 3⟩]⟩ 1 4
        [(Item.addon ⟨2, "Pickles", 1, 3⟩, 1)]).2 =
      [(Item.addon ⟨2, "Pickles", 1, 3⟩, 1)] :=
  (add_to_order_atomic ⟨[⟨1, "Burger", 5, 10, "2"⟩], [⟨2, "Pickles", 1, 3⟩]⟩ 1 4
    [(Item.addon ⟨2, "Pickles", 1, 3⟩, 1)]).1 (by decide)

/-- Claim C3: a product with preset add-ons and sufficient stock is
added as one group per requested unit — `(p,1)` followed by one `(a,1)`
line per preset addon — appended after the existing cart; the item count
grows by `qty · (1 + number of preset addons)`, e.g. 9 line items for
quantity 3 with two preset add-ons. -/
theorem add_to_order_preset_groups (b : Backend) (pid qty : Int) (s : List LineItem)
    (p : Product) (l : List Addon)
    (hp : get_product b pid = some p)
    (hq : 1 ≤ qty) (hstock : qty ≤ p.prodStock)
    (hpre : ¬(p.prodPresetAddons = "None" ∨ p.prodPresetAddons = ""))
    (hck : checkParts b qty (pySplit p.prodPresetAddons ',') = Except.ok l) :
    add_to_order_product b pid qty s =
      (AddResult.ok, s ++ (List.replicate qty.toNat (presetGroup p l)).flatten)
    ∧ (add_to_order_product b pid qty s).2.length =
        s.length + qty.toNat * (1 + l.length) := by
  have hq' : ¬ qty ≤ 0 := by omega
  have hst : ¬ p.prodStock < qty := not_lt.mpr hstock
  have hp2 : get_product b p.prodID = some p := get_product_refetch b pid p hp
  have heq : add_to_order_product b pid qty s =
      addLoop b p (pySplit p.prodPresetAddons ',') qty qty.toNat s := by
    simp [add_to_order_product, hq', hp, hst, hp2, hpre]
  have hloop := (addLoop_cases b p (pySplit p.prodPresetAddons ',') qty qty.toNat s).2 l hck
  constructor
  · rw [heq, hloop]
  · rw [heq, hloop]
    simp only [List.length_append, List.length_flatten, List.map_replicate,
      List.sum_replicate, smul_eq_mul, presetGroup, List.length_cons, List.length_map]
    ring

/-- Concrete check of `add_to_order_preset_groups`: quantity 3 of a
product with preset add-ons `[A, B]` appends exactly 9 line items in 3
groups of `(p,1),(A,1),(B,1)`. -/
theorem add_to_order_preset_groups_witness :
    add_to_order_product
        ⟨[⟨1, "Burger", 5, 10, "2,3"⟩], [⟨2, "Pickles", 1, 9⟩, ⟨3, "Onions", 1, 9⟩]⟩
        1 3 [] =
      (AddResult.ok,
        (List.replicate 3 (presetGroup ⟨1, "Burger", 5, 10, "2,3"⟩
          [⟨2, "Pickles", 1, 9⟩, ⟨3, "Onions", 1, 9⟩])).flatten)
    ∧ (add_to_order_product
        ⟨[⟨1, "Burger", 5, 10, "2,3"⟩], [⟨2, "Pickles", 1, 9⟩, ⟨3, "Onions", 1, 9⟩]⟩
        1 3 []).2.length = 9 := by
  have h := add_to_order_preset_groups
    ⟨[⟨1, "Burger", 5, 10, "2,3"⟩], [⟨2, "Pickles", 1, 9⟩, ⟨3, "Onions", 1, 9⟩]⟩
    1 3 [] ⟨1, "Burger", 5, 10, "2,3"⟩ [⟨2, "Pickles", 1, 9⟩, ⟨3, "Onions", 1, 9⟩]
    (by decide) (by decide) (by decide) (by decide) rfl
  exact ⟨by rw [h.1]; rfl, by rw [h.2]; rfl⟩

/-- The dict `{addon.addonID: addon.addonStock for addon in addonList}`
built by `save_addons`; a later record with the same id overwrites an
earlier one, so lookup takes the last matching record. -/
def dictLookup (al : List Addon) (aid : Int) : Option Int :=
  (al.reverse.find? (fun a => a.addonID == aid)).map (fun a => a.addonStock)

/-- The segment `line.split("=")[1]` whose stripped text `save_addons`
parses as the record identifier of an `addonID=` line (`pyInt?` does the
stripping; the index exists because the line contains `=`). -/
def idSegment (line : String) : String :=
  (pySplit line '=').getD 1 ""

/-- The line-rewriting loop of `BackendAdapter.save_addons`
(src/gui/restaurant_app.py, lines 82–88): walks the file lines keeping a
current-record state `inA`; an `addonID=` line parses its id (a parse
failure raises, making the whole call fail — modelled as `none`) and
enters the record when the id is tracked; an `addonStock=` line inside a
tracked record is replaced by the in-memory stock; every other line is
kept byte-identical. -/
def processLines (al : List Addon) : Option Int → List String → Option (List String)
  | _, [] => some []
  | inA, line :: rest =>
    if pyStartsWith line "addonID=" then
      match pyInt? (idSegment line) with
      | none => none
      | some aid =>
        let inA2 := if (dictLookup al aid).isSome then some aid else none
        (processLines al inA2 rest).map (fun r => line :: r)
    else
      match inA with
      | some aid =>
        if pyStartsWith line "addonStock=" then
          match dictLookup al aid with
          | some st =>
            (processLines al inA rest).map (fun r => ("addonStock=" ++ toString st) :: r)
          | none =>
            -- unreachable: `inA` only ever holds tracked identifiers
            (processLines al inA rest).map (fun r => line :: r)
        else (processLines al inA rest).map (fun r => line :: r)
      | none => (processLines al inA rest).map (fun r => line :: r)

/-- `BackendAdapter.save_addons` (src/gui/restaurant_app.py, lines
73–97): reads the addon file, rewrites its lines via `processLines`, and
writes the result back; any exception (unreadable file, unparsable
`addonID=` line) is caught and reported as `False` with the file left as
it was.  The in-memory addon list is never written to. -/
def save_addons (al : List Addon) (file : Option (List String)) :
    Bool × Option (List String) :=
  match file with
  | none => (false, none)
  | some lines =>
    match processLines al none lines with
    | none => (false, some lines)
    | some out => (true, some out)

/-- Replay of the `in_addon` record state of `save_addons` over a
prefix of the file lines, starting from state `inA`: an `addonID=` line
whose id parses enters the record when the id is tracked and leaves it
(`none`) otherwise; every other line keeps the state.  (The unparsable
arm returns `none`; it is never hit on the prefix of a run that
succeeded, since the source call would have failed there.) -/
def inAddonState (al : List Addon) : Option Int → List String → Option Int
  | inA, [] => inA
  | inA, line :: rest =>
    if pyStartsWith line "addonID=" then
      match pyInt? (idSegment line) with
      | none => none
      | some aid =>
        inAddonState al (if (dictLookup al aid).isSome then some aid else none) rest
    else inAddonState al inA rest

/-- A line that is not an `addonID=` line keeps the record state. -/
theorem inAddonState_cons_other (al : List Addon) (inA : Option Int) (line : String)
    (l : List String) (hnotid : pyStartsWith line "addonID=" = false) :
    inAddonState al inA (line :: l) = inAddonState al inA l := by
  simp [inAddonState, hnotid]

/-- An `addonID=` line whose id parses moves the record state to that id
when it is tracked, and to `none` otherwise. -/
theorem inAddonState_cons_id (al : List Addon) (inA : Option Int) (line : String)
    (l : List String) (aid : Int)
    (hid : pyStartsWith line "addonID=" = true)
    (hparse : pyInt? (idSegment line) = some aid) :
    inAddonState al inA (line :: l) =
      inAddonState al (if (dictLookup al aid).isSome then some aid else none) l := by
  simp [inAddonState, hid, hparse]

/-- The frame property of one `save_addons` rewrite starting in record
state `inA`: same number of lines in the same order, and any line that
changed was an `addonStock=` line whose governing record — the
`addonID=` line state replayed up to that index — is a tracked
identifier `aid`, and it was replaced by exactly that identifier's
in-memory stock, `addonStock=<dictLookup al aid>`.  In particular every
line of an untracked record block is byte-identical. -/
def LineFrame (al : List Addon) (inA : Option Int) (lines out : List String) : Prop :=
  out.length = lines.length
  ∧ ∀ k : Nat, out[k]? ≠ lines[k]? →
      ∃ line aid st, lines[k]? = some line
        ∧ pyStartsWith line "addonStock=" = true
        ∧ inAddonState al inA (lines.take k) = some aid
        ∧ dictLookup al aid = some st
        ∧ out[k]? = some ("addonStock=" ++ toString st)

/-- The empty rewrite satisfies the frame. -/
theorem lineFrame_nil (al : List Addon) (inA : Option Int) : LineFrame al inA [] [] := by
  constructor
  · rfl
  · intro k hk
    simp at hk

/-- Keeping a non-`addonID=` head line preserves the frame. -/
theorem lineFrame_cons_other (al : List Addon) (inA : Option Int) (line : String)
    (lines out : List String)
    (hnotid : pyStartsWith line "addonID=" = false)
    (h : LineFrame al inA lines out) :
    LineFrame al inA (line :: lines) (line :: out) := by
  constructor
  · simp [h.1]
  · intro k hk
    match k with
    | 0 => simp at hk
    | k + 1 =>
      simp only [List.getElem?_cons_succ] at hk ⊢
      obtain ⟨l2, aid, st, h1, h2, h3, h4, h5⟩ := h.2 k hk
      refine ⟨l2, aid, st, h1, h2, ?_, h4, h5⟩
      rw [List.take_succ_cons, inAddonState_cons_other al inA line _ hnotid]
      exact h3

/-- Keeping an `addonID=` head line whose id parses preserves the
frame, with the tail judged in the state the line switches to. -/
theorem lineFrame_cons_id (al : List Addon) (inA : Option Int) (line : String)
    (lines out : List String) (aid : Int)
    (hid : pyStartsWith line "addonID=" = true)
    (hparse : pyInt? (idSegment line) = some aid)
    (h : LineFrame al (if (dictLookup al aid).isSome then some aid else none) lines out) :
    LineFrame al inA (line :: lines) (line :: out) := by
  constructor
  · simp [h.1]
  · intro k hk
    match k with
    | 0 => simp at hk
    | k + 1 =>
      simp only [List.getElem?_cons_succ] at hk ⊢
      obtain ⟨l2, aid2, st, h1, h2, h3, h4, h5⟩ := h.2 k hk
      refine ⟨l2, aid2, st, h1, h2, ?_, h4, h5⟩
      rw [List.take_succ_cons, inAddonState_cons_id al inA line _ aid hid hparse]
      exact h3

/-- Replacing the head stock line inside tracked record `aid` by that
record's stock preserves the frame. -/
theorem lineFrame_cons_replace (al : List Addon) (aid st : Int) (line : String)
    (lines out : List String)
    (hnotid : pyStartsWith line "addonID=" = false)
    (hline : pyStartsWith line "addonStock=" = true)
    (hst : dictLookup al aid = some st)
    (h : LineFrame al (some aid) lines out) :
    LineFrame al (some aid) (line :: lines) (("addonStock=" ++ toString st) :: out) := by
  constructor
  · simp [h.1]
  · intro k hk
    match k with
    | 0 => exact ⟨line, aid, st, by simp, hline, rfl, hst, by simp⟩
    | k + 1 =>
      simp only [List.getElem?_cons_succ] at hk ⊢
      obtain ⟨l2, aid2, st2, h1, h2, h3, h4, h5⟩ := h.2 k hk
      refine ⟨l2, aid2, st2, h1, h2, ?_, h4, h5⟩
      rw [List.take_succ_cons, inAddonState_cons_other al (some aid) line _ hnotid]
      exact h3

/-- A successful `processLines` pass satisfies the line frame for the
record state it starts in. -/
theorem processLines_spec (al : List Addon) :
    ∀ (lines : List String) (inA : Option Int) (out : List String),
      processLines al inA lines = some out → LineFrame al inA lines out
  | [], inA, out, h => by
    simp [processLines] at h
    subst h
    exact lineFrame_nil al inA
  | line :: rest, inA, out, h => by
    by_cases hid : pyStartsWith line "addonID=" = true
    · rcases hparse : pyInt? (idSegment line) with _ | aid
      · rw [show processLines al inA (line :: rest) = none by
          simp [processLines, hid, hparse]] at h
        simp at h
      · rw [show processLines al inA (line :: rest) =
            (processLines al (if (dictLookup al aid).isSome then some aid else none)
              rest).map (fun r => line :: r) by
          simp [processLines, hid, hparse]] at h
        obtain ⟨r, hr, hout⟩ := Option.map_eq_some'.mp h
        rw [← hout]
        exact lineFrame_cons_id al inA line rest r aid hid hparse
          (processLines_spec al rest _ r hr)
    · rw [Bool.not_eq_true] at hid
      rcases inA with _ | aid
      · rw [show processLines al none (line :: rest) =
            (processLines al none rest).map (fun r => line :: r) by
          simp [processLines, hid]] at h
        obtain ⟨r, hr, hout⟩ := Option.map_eq_some'.mp h
        rw [← hout]
        exact lineFrame_cons_other al none line rest r hid
          (processLines_spec al rest none r hr)
      · by_cases hline : pyStartsWith line "addonStock=" = true
        · rcases hst : dictLookup al aid with _ | st
          · rw [show processLines al (some aid) (line :: rest) =
                (processLines al (some aid) rest).map (fun r => line :: r) by
              simp [processLines, hid, hline, hst]] at h
            obtain ⟨r, hr, hout⟩ := Option.map_eq_some'.mp h
            rw [← hout]
            exact lineFrame_cons_other al (some aid) line rest r hid
              (processLines_spec al rest _ r hr)
          · rw [show processLines al (some aid) (line :: rest) =
                (processLines al (some aid) rest).map
                  (fun r => ("addonStock=" ++ toString st) :: r) by
              simp [processLines, hid, hline, hst]] at h
            obtain ⟨r, hr, hout⟩ := Option.map_eq_some'.mp h
            rw [← hout]
            exact lineFrame_cons_replace al aid st line rest r hid hline hst
              (processLines_spec al rest _ r hr)
        · rw [Bool.not_eq_true] at hline
          rw [show processLines al (some aid) (line :: rest) =
              (processLines al (some aid) rest).map (fun r => line :: r) by
            simp [processLines, hid, hline]] at h
          obtain ⟨r, hr, hout⟩ := Option.map_eq_some'.mp h
          rw [← hout]
          exact lineFrame_cons_other al (some aid) line rest r hid
            (processLines_spec al rest _ r hr)

/-- Claim C6: committing add-on stock is a targeted rewrite: on success
the file keeps exactly the same number of lines in the same order; every
changed line is an `addonStock=` line whose governing record block —
per the `addonID=` state replayed up to that index — is a tracked
identifier, and the value written is exactly that identifier's
in-memory stock; consequently every line outside a tracked record block
(untracked records, interleaved metadata) is byte-identical.  On
failure (unreadable file or an unparsable `addonID=` line — any
exception is caught, not raised) the call reports `false` and the file
is unchanged; the in-memory addon list is never written either way. -/
theorem save_addons_frame (al : List Addon) (file : Option (List String)) :
    ((save_addons al file).1 = false → (save_addons al file).2 = file)
    ∧ (∀ lines out, file = some lines → save_addons al file = (true, some out) →
        LineFrame al none lines out)
    ∧ (∀ lines out, file = some lines → save_addons al file = (true, some out) →
        ∀ k : Nat, inAddonState al none (lines.take k) = none →
          out[k]? = lines[k]?) := by
  have hframe : ∀ lines out, file = some lines →
      save_addons al file = (true, some out) → LineFrame al none lines out := by
    intro lines out hfile hok
    subst hfile
    rw [save_addons] at hok
    rcases hp : processLines al none lines with _ | out2
    · rw [hp] at hok
      simp at hok
    · rw [hp] at hok
      simp at hok
      rw [← hok]
      exact processLines_spec al lines none out2 hp
  refine ⟨?_, hframe, ?_⟩
  · intro hfail
    match file with
    | none => rfl
    | some lines =>
      rw [save_addons]
      rcases hp : processLines al none lines with _ | out
      · simp
      · rw [save_addons, hp] at hfail
        simp at hfail
  · intro lines out hfile hok k hnone
    by_contra hne
    obtain ⟨_, _, _, _, _, h3, _, _⟩ := (hframe lines out hfile hok).2 k hne
    rw [hnone] at h3
    exact absurd h3 (by simp)

/-- Concrete check of `save_addons_frame`: a file holding a tracked
record (id 1), an untracked record (id 2) and a metadata line — only
the tracked record's `addonStock=` line changes (4 → 9), the untracked
record's stock line and every other line are byte-identical, and a file
with an unparsable `addonID=` line makes the call fail with the file
unchanged. -/
theorem save_addons_frame_witness :
    LineFrame [⟨1, "Pickles", 1, 9⟩] none
      ["addonID=1", "addonName=Pickles", "addonStock=4", "misc",
       "addonID=2", "addonStock=7"]
      ["addonID=1", "addonName=Pickles", "addonStock=9", "misc",
       "addonID=2", "addonStock=7"]
    ∧ (["addonID=1", "addonName=Pickles", "addonStock=9", "misc",
        "addonID=2", "addonStock=7"] : List String)[5]? =
       (["addonID=1", "addonName=Pickles", "addonStock=4", "misc",
         "addonID=2", "addonStock=7"] : List String)[5]?
    ∧ (save_addons [⟨1, "Pickles", 1, 9⟩] (some ["addonID=x", "addonStock=4"])).2 =
        some ["addonID=x", "addonStock=4"] := by
  refine ⟨?_, ?_, ?_⟩
  · exact (save_addons_frame [⟨1, "Pickles", 1, 9⟩]
      (some ["addonID=1", "addonName=Pickles", "addonStock=4", "misc",
             "addonID=2", "addonStock=7"])).2.1
      ["addonID=1", "addonName=Pickles", "addonStock=4", "misc",
       "addonID=2", "addonStock=7"]
      ["addonID=1", "addonName=Pickles", "addonStock=9", "misc",
       "addonID=2", "addonStock=7"] rfl (by rfl)
  · exact (save_addons_frame [⟨1, "Pickles", 1, 9⟩]
      (some ["addonID=1", "addonName=Pickles", "addonStock=4", "misc",
             "addonID=2", "addonStock=7"])).2.2
      ["addonID=1", "addonName=Pickles", "addonStock=4", "misc",
       "addonID=2", "addonStock=7"]
      ["addonID=1", "addonName=Pickles", "addonStock=9", "misc",
       "addonID=2", "addonStock=7"] rfl (by rfl) 5 (by rfl)
  · exact (save_addons_frame [⟨1, "Pickles", 1, 9⟩]
      (some ["addonID=x", "addonStock=4"])).1 (by rfl)

/-- Whether a line item references an addon (the source's
`hasattr(item, 'addonPrice')`). -/
def isAddonItem : LineItem → Bool
  | (Item.addon _, _) => true
  | (Item.prod _, _) => false

/-- Whether a line item references a product. -/
def isProductItem : LineItem → Bool
  | (Item.prod _, _) => true
  | (Item.addon _, _) => false

/-- The spec's grouping invariant: every addon line item is preceded —
possibly through other addon line items — by a product line item;
since every line item is a product or an addon, this is the existence of
an earlier product line. -/
def orphanFree (s : List LineItem) : Prop :=
  ∀ (i : Nat) (li : LineItem), s[i]? = some li → isAddonItem li = true →
    ∃ j, j < i ∧ ∃ lj, s[j]? = some lj ∧ isProductItem lj = true

/-- One cart mutation through the public API of the tk GUI: adding a
product (`add_to_order`'s product branch, preset expansion included),
manually adding an addon (`add_mod`), removing the last line item, or
clearing the cart (cancel / checkout / successful kitchen send). -/
inductive CartStep (b : Backend) : List LineItem → List LineItem → Prop
  | add_product (pid qty : Int) (s : List LineItem) :
      CartStep b s (add_to_order_product b pid qty s).2
  | add_mod (aid qty : Int) (s : List LineItem) :
      CartStep b s (add_mod_fn b aid qty s)
  | remove_last (s : List LineItem) :
      CartStep b s (AppOrder.remove_last_item ⟨s⟩).items
  | clear (s : List LineItem) :
      CartStep b s []

/-- Cart states reachable from the empty cart through the public API. -/
def CartReachable (b : Backend) (s : List LineItem) : Prop :=
  Relation.ReflTransGen (CartStep b) [] s

/-- The cart mutations other than manual addon insertion. -/
inductive CartStepNoMod (b : Backend) : List LineItem → List LineItem → Prop
  | add_product (pid qty : Int) (s : List LineItem) :
      CartStepNoMod b s (add_to_order_product b pid qty s).2
  | remove_last (s : List LineItem) :
      CartStepNoMod b s (AppOrder.remove_last_item ⟨s⟩).items
  | clear (s : List LineItem) :
      CartStepNoMod b s []

/-- Counterexample to claim C8 as stated: from the empty cart, a single
`add_mod` of an in-stock addon reaches a cart whose only line item is an
addon with no preceding product — an orphan addon line item, reachable
through the public API. -/
theorem orphan_addon_reachable :
    CartReachable ⟨[], [⟨1, "Pickles", 1, 5⟩]⟩ [(Item.addon ⟨1, "Pickles", 1, 5⟩, 1)]
    ∧ ¬ orphanFree [(Item.addon ⟨1, "Pickles", 1, 5⟩, 1)] := by
  constructor
  · have hstep := CartStep.add_mod (b := ⟨[], [⟨1, "Pickles", 1, 5⟩]⟩) 1 1 []
    have heval : add_mod_fn ⟨[], [⟨1, "Pickles", 1, 5⟩]⟩ 1 1 [] =
        [(Item.addon ⟨1, "Pickles", 1, 5⟩, 1)] := by rfl
    exact Relation.ReflTransGen.single (heval ▸ hstep)
  · intro h
    obtain ⟨j, hj, _⟩ := h 0 (Item.addon ⟨1, "Pickles", 1, 5⟩, 1) rfl rfl
    exact absurd hj (Nat.not_lt_zero j)

/-- A line item that is not an addon is a product. -/
theorem isProductItem_of_not_addon (li : LineItem) (h : isAddonItem li = false) :
    isProductItem li = true := by
  rcases li with ⟨it, q⟩
  cases it
  · rfl
  · simp [isAddonItem] at h

/-- The invariant is equivalent to "empty, or the first line item is a
product": any earlier product witnesses the head being reachable, and
the head itself witnesses every later addon. -/
theorem orphanFree_iff_head (s : List LineItem) :
    orphanFree s ↔ s = [] ∨ ∃ li, s[0]? = some li ∧ isProductItem li = true := by
  constructor
  · intro h
    match s with
    | [] => exact Or.inl rfl
    | x :: t =>
      refine Or.inr ?_
      by_cases hx : isAddonItem x = true
      · obtain ⟨j, hj, _⟩ := h 0 x (by simp) hx
        exact absurd hj (Nat.not_lt_zero j)
      · exact ⟨x, by simp, isProductItem_of_not_addon x (Bool.not_eq_true _ ▸ hx)⟩
  · intro h
    rcases h with rfl | ⟨li, hli, hprod⟩
    · intro i x hx _
      simp at hx
    · intro i x hx haddon
      match i with
      | 0 =>
        rw [hli] at hx
        injection hx with hx2
        subst hx2
        exfalso
        rcases li with ⟨it, q⟩
        cases it
        · simp [isAddonItem] at haddon
        · simp [isProductItem] at hprod
      | i + 1 => exact ⟨0, Nat.succ_pos i, li, hli, hprod⟩

/-- Every exit of `addLoop` leaves the cart either unchanged or extended
by a block whose first appended line item is the product. -/
theorem addLoop_shape (b : Backend) (p : Product) (parts : List String) (qty : Int) :
    ∀ (n : Nat) (cur : List LineItem),
      (addLoop b p parts qty n cur).2 = cur
      ∨ ∃ q rest2, (addLoop b p parts qty n cur).2 = cur ++ (Item.prod p, q) :: rest2
  | 0, cur => Or.inl rfl
  | n + 1, cur => by
    rcases hck : checkParts b qty parts with e | l
    · left
      simp [addLoop, hck]
    · have hstep : addLoop b p parts qty (n + 1) cur =
          addLoop b p parts qty n (cur ++ presetGroup p l) := by
        simp [addLoop, hck]
      right
      rcases addLoop_shape b p parts qty n (cur ++ presetGroup p l) with h | ⟨q, rest2, h⟩
      · exact ⟨1, l.map (fun a => (Item.addon a, 1)), by
          rw [hstep, h, presetGroup]⟩
      · exact ⟨1, l.map (fun a => (Item.addon a, 1)) ++ (Item.prod p, q) :: rest2, by
          rw [hstep, h, presetGroup]
          simp [List.append_assoc, List.cons_append]⟩

/-- Every exit of the product branch of `add_to_order` leaves the cart
either unchanged or extended by a block starting with a product line. -/
theorem add_to_order_shape (b : Backend) (pid qty : Int) (s : List LineItem) :
    (add_to_order_product b pid qty s).2 = s
    ∨ ∃ p q rest2, (add_to_order_product b pid qty s).2 = s ++ (Item.prod p, q) :: rest2 := by
  by_cases hq : qty ≤ 0
  · left; simp [add_to_order_product, hq]
  · rcases hp : get_product b pid with _ | p
    · left; simp [add_to_order_product, hq, hp]
    · by_cases hst : p.prodStock < qty
      · left; simp [add_to_order_product, hq, hp, hst]
      · have hp2 : get_product b p.prodID = some p := get_product_refetch b pid p hp
        by_cases hpre : p.prodPresetAddons = "None" ∨ p.prodPresetAddons = ""
        · right
          exact ⟨p, qty, [], by simp [add_to_order_product, hq, hp, hst, hp2, hpre]⟩
        · have heq : add_to_order_product b pid qty s =
              addLoop b p (pySplit p.prodPresetAddons ',') qty qty.toNat s := by
            simp [add_to_order_product, hq, hp, hst, hp2, hpre]
          rw [heq]
          rcases addLoop_shape b p (pySplit p.prodPresetAddons ',') qty qty.toNat s with
            h | ⟨q, rest2, h⟩
          · exact Or.inl h
          · exact Or.inr ⟨p, q, rest2, h⟩

/-- A cart extended by a product-led block keeps the invariant. -/
theorem orphanFree_append_product_block (s : List LineItem) (p : Product) (q : Int)
    (rest2 : List LineItem) (h : orphanFree s) :
    orphanFree (s ++ (Item.prod p, q) :: rest2) := by
  rw [orphanFree_iff_head]
  rcases (orphanFree_iff_head s).mp h with rfl | ⟨li, hli, hprod⟩
  · exact Or.inr ⟨(Item.prod p, q), by simp, rfl⟩
  · right
    refine ⟨li, ?_, hprod⟩
    have hlen : 0 < s.length := by
      match s with
      | [] => simp at hli
      | x :: t => simp
    rw [List.getElem?_append_left hlen]
    exact hli

/-- Removing the last line item keeps the invariant. -/
theorem orphanFree_remove_last (s : List LineItem) (h : orphanFree s) :
    orphanFree ((AppOrder.remove_last_item ⟨s⟩).items) := by
  by_cases hs : s = []
  · subst hs
    simp [AppOrder.remove_last_item]
    exact h
  · have hred : (AppOrder.remove_last_item ⟨s⟩).items = s.dropLast := by
      simp [AppOrder.remove_last_item, hs]
    rw [hred, orphanFree_iff_head]
    rcases (orphanFree_iff_head s).mp h with rfl | ⟨li, hli, hprod⟩
    · exact absurd rfl hs
    · rcases s with _ | ⟨x, s2⟩
      · exact absurd rfl hs
      · rcases s2 with _ | ⟨y, t2⟩
        · exact Or.inl rfl
        · right
          refine ⟨li, ?_, hprod⟩
          have hx : x = li := by simpa using hli
          subst hx
          simp

/-- The empty cart satisfies the invariant. -/
theorem orphanFree_nil : orphanFree [] := by
  intro i li hli _
  simp at hli

/-- Each cart mutation other than manual addon insertion preserves the
grouping invariant. -/
theorem cartStepNoMod_preserves (b : Backend) (t u : List LineItem)
    (hstep : CartStepNoMod b t u) (ht : orphanFree t) : orphanFree u := by
  cases hstep with
  | add_product pid qty =>
    rcases add_to_order_shape b pid qty t with heq | ⟨p, q, rest2, heq⟩
    · rw [heq]; exact ht
    · rw [heq]; exact orphanFree_append_product_block t p q rest2 ht
  | remove_last => exact orphanFree_remove_last t ht
  | clear => exact orphanFree_nil

/-- Claim C8 (amended): in every cart state reachable from the empty
cart through adding products (with their preset-addon expansion),
removing the last line item, and clearing the cart, every addon line
item is preceded by a product line item; the manual add-addon operations
(`add_mod`, and `add_to_order` on the addon tree) are excluded because
they can append an addon to an empty cart, creating an orphan addon
line item (see the counterexample). -/
theorem orphanFree_reachable_no_mod (b : Backend) (s : List LineItem)
    (h : Relation.ReflTransGen (CartStepNoMod b) [] s) : orphanFree s := by
  induction h with
  | refl => exact orphanFree_nil
  | tail _ hstep ih => exact cartStepNoMod_preserves b _ _ hstep ih

/-- Concrete check of `orphanFree_reachable_no_mod`: the cart reached by
one product add (a Burger with no presets) from the empty cart satisfies
the invariant. -/
theorem orphanFree_reachable_no_mod_witness :
    orphanFree ((add_to_order_product ⟨[⟨1, "Burger", 5, 10, "None"⟩], []⟩ 1 1 []).2) :=
  orphanFree_reachable_no_mod ⟨[⟨1, "Burger", 5, 10, "None"⟩], []⟩ _
    (Relation.ReflTransGen.single (CartStepNoMod.add_product 1 1 []))

end Restaurant
